import Mathlib

/-!
# Verification of the when-time TimeTask component

A shallow embedding of src/TimeTask.js (the single component of the
when-time repository) together with theorems checking the specification
claims about it.

Modelling conventions:
- JS strings are embedded as `List Char`; `String.split`, `startsWith`,
  `endsWith`, `indexOf` and `toLowerCase` become the corresponding list
  operations (ASCII lower-casing).
- JS numbers reaching the time arithmetic are embedded as `JSVal`,
  a rational or NaN; exact rational arithmetic idealizes the float64
  numbers of JS (no claim here depends on rounding).  Unary plus on a
  token (`+s`) is embedded as `js_to_number`, covering the
  optionally-signed decimal literals of JS with fractional part and
  exponent, and the unsigned hex/octal/binary literal forms (the empty
  string gives 0, as in JS); only the Infinity keyword is outside the
  modelled fragment and gives NaN.  The JS remainder operator is the
  remainder of division truncated toward zero, extended to rationals.
- The repeat counter, which the code compares against Infinity, is
  embedded as `JSNum`, an integer or positive infinity.
- The impure collaborators (Date, setTimeout/setInterval, the timezone
  rendering of toLocaleTimeString) are passed in explicitly: current
  wall-clock snapshots and the value of Date.now() are parameters, and
  live timer handles are booleans consumed by explicit fire events.
-/

set_option autoImplicit false

set_option maxRecDepth 2000

/-- Decidable equality of results, for evaluating concrete runs of the
fallible operations. -/
instance {ε α : Type} [DecidableEq ε] [DecidableEq α] : DecidableEq (Except ε α)
  | .ok a, .ok b =>
    if h : a = b then .isTrue (by rw [h]) else .isFalse (fun hc => h (Except.ok.inj hc))
  | .ok _, .error _ => .isFalse (fun hc => Except.noConfusion hc)
  | .error _, .ok _ => .isFalse (fun hc => Except.noConfusion hc)
  | .error a, .error b =>
    if h : a = b then .isTrue (by rw [h]) else .isFalse (fun hc => h (Except.error.inj hc))

/-- A JS number as it occurs in the time arithmetic of TimeTask.js:
either a rational value or NaN.  (Infinities never reach these code
paths: fields come from `js_to_number`, which never produces them.) -/
inductive JSVal where
  | num : ℚ → JSVal
  | nan : JSVal
deriving DecidableEq, Repr

/-- JS `<` on numbers: false whenever either side is NaN. -/
def JSVal.lt : JSVal → JSVal → Bool
  | .num a, .num b => a < b
  | _, _ => false

/-- JS `+` on numbers: NaN absorbs. -/
def JSVal.add : JSVal → JSVal → JSVal
  | .num a, .num b => .num (a + b)
  | _, _ => .nan

/-- JS `-` on numbers: NaN absorbs. -/
def JSVal.sub : JSVal → JSVal → JSVal
  | .num a, .num b => .num (a - b)
  | _, _ => .nan

/-- JS `*` on numbers: NaN absorbs. -/
def JSVal.mul : JSVal → JSVal → JSVal
  | .num a, .num b => .num (a * b)
  | _, _ => .nan

/-- Truncation toward zero of a rational, as the JS remainder uses it. -/
def jsTrunc (q : ℚ) : Int :=
  if 0 ≤ q then ⌊q⌋ else -⌊-q⌋

/-- JS `%` with an integer literal on the right: the remainder
a - l * trunc(a / l) of division truncated toward zero; NaN absorbs
and a zero divisor gives NaN. -/
def JSVal.jmod : JSVal → Int → JSVal
  | .num a, l => if l = 0 then .nan else .num (a - l * jsTrunc (a / l))
  | .nan, _ => .nan

/-- A JS number as the repeat counter can hold it: an integer or
positive Infinity (the default of `repeat(amount = Infinity)`). -/
inductive JSNum where
  | fin : Int → JSNum
  | inf : JSNum
deriving DecidableEq, Repr

/-- JS `<` with Infinity: `Infinity < x` is false, `a < Infinity` true. -/
def JSNum.lt : JSNum → JSNum → Bool
  | .fin a, .fin b => a < b
  | .fin _, .inf => true
  | .inf, _ => false

/-- JS `>`: flipped `<` (no NaN in this type, so this is exact). -/
def JSNum.gt (a b : JSNum) : Bool := JSNum.lt b a

/-- JS decrement: `Infinity - 1 = Infinity`. -/
def JSNum.dec : JSNum → JSNum
  | .fin a => .fin (a - 1)
  | .inf => .inf

/-- Embeds `#wrap_number(input, limit)` of TimeTask.js:
`input > limit ? input % limit : input < 0 ? (input % limit) + limit : input`. -/
def wrap_number (input : JSVal) (limit : Int) : JSVal :=
  if (JSVal.num limit).lt input then input.jmod limit
  else if input.lt (.num 0) then (input.jmod limit).add (.num limit)
  else input

/-- Numeric value of a run of decimal digit characters. -/
def digitsNat (s : List Char) : Nat :=
  s.foldl (fun n c => n * 10 + (c.toNat - 48)) 0

/-- Parses the exponent suffix of a JS decimal literal: an empty rest
means exponent 0; an e/E followed by optionally signed digits gives
that exponent; anything else fails. -/
def js_exponent (s : List Char) : Option Int :=
  match s with
  | [] => some 0
  | c :: rest =>
    if c = 'e' ∨ c = 'E' then
      match rest with
      | '+' :: ds =>
        if ds ≠ [] ∧ ds.all Char.isDigit then some (digitsNat ds) else none
      | '-' :: ds =>
        if ds ≠ [] ∧ ds.all Char.isDigit then some (-(digitsNat ds : Int)) else none
      | ds =>
        if ds ≠ [] ∧ ds.all Char.isDigit then some (digitsNat ds) else none
    else none

/-- Parses an unsigned JS decimal literal — digits, digits.digits?, or
.digits, each with an optional exponent — into its exact rational
value. -/
def js_mantissa_exp (s : List Char) : Option ℚ :=
  let ip := s.takeWhile Char.isDigit
  let rest := s.drop ip.length
  match rest with
  | '.' :: rest2 =>
    let fp := rest2.takeWhile Char.isDigit
    let rest3 := rest2.drop fp.length
    if ip.isEmpty ∧ fp.isEmpty then none
    else
      (js_exponent rest3).map fun e =>
        ((digitsNat ip : ℚ) + (digitsNat fp : ℚ) / ((10 : ℚ) ^ fp.length)) * (10 : ℚ) ^ e
  | _ =>
    if ip.isEmpty then none
    else (js_exponent rest).map fun e => (digitsNat ip : ℚ) * (10 : ℚ) ^ e

/-- Value of one digit character in the given radix (hex accepts both
letter cases), if it is one. -/
def radixDigit? (radix : Nat) (c : Char) : Option Nat :=
  if c.isDigit ∧ c.toNat - 48 < radix then some (c.toNat - 48)
  else if radix = 16 ∧ 'a' ≤ c ∧ c ≤ 'f' then some (c.toNat - 87)
  else if radix = 16 ∧ 'A' ≤ c ∧ c ≤ 'F' then some (c.toNat - 55)
  else none

/-- Value of a non-empty token of digits in the given radix. -/
def radixVal? (radix : Nat) (s : List Char) : Option Nat :=
  if s.isEmpty then none
  else s.foldl
    (fun acc c =>
      match acc, radixDigit? radix c with
      | some n, some d => some (n * radix + d)
      | _, _ => none)
    (some 0)

/-- Embeds JS unary plus (`+s`) on a space-free token: the empty string
gives 0 (as in JS), an optionally signed decimal literal — with
fractional part and exponent — gives its exact value, the unsigned
0x/0o/0b radix literals give their values, and anything else
(including the unmodelled Infinity keyword) gives NaN. -/
def js_to_number (s : List Char) : JSVal :=
  if s.isEmpty then .num 0
  else
    match
      match s with
      | '0' :: 'x' :: rest => (radixVal? 16 rest).map fun n => (n : ℚ)
      | '0' :: 'X' :: rest => (radixVal? 16 rest).map fun n => (n : ℚ)
      | '0' :: 'o' :: rest => (radixVal? 8 rest).map fun n => (n : ℚ)
      | '0' :: 'O' :: rest => (radixVal? 8 rest).map fun n => (n : ℚ)
      | '0' :: 'b' :: rest => (radixVal? 2 rest).map fun n => (n : ℚ)
      | '0' :: 'B' :: rest => (radixVal? 2 rest).map fun n => (n : ℚ)
      | '+' :: rest => js_mantissa_exp rest
      | '-' :: rest => (js_mantissa_exp rest).map Neg.neg
      | _ => js_mantissa_exp s
    with
    | some q => .num q
    | none => .nan

/-- The normalized time-of-day record produced by `#parse_time_string`
(and by the current-time snapshots).  Fields are JS numbers: integer
in the common case, NaN when a present component was non-numeric. -/
structure TimePoint where
  hours : JSVal
  minutes : JSVal
  seconds : JSVal
  milliseconds : JSVal
deriving DecidableEq, Repr

/-- The error message thrown by `#parse_time_string`. -/
def time_error : String :=
  "time_string is not a valid time string. Must be Hours:Minutes:Seconds:Milliseconds AM/PM"

/-- Embeds `#parse_time_string(time_string)` of TimeTask.js.
Lower-case, detect a trailing " pm", split off the pre-chunk before the
first space, require a ":" in it, parse hours with a NaN check, wrap
hours into 24, add 12 when hours < 12 and PM, and wrap the remaining
components (a missing or empty component counts as 0, via chunks[i] || 0).
The two error branches both reach the single throw of the source. -/
def parse_time_string (time_string : List Char) : Except String TimePoint :=
  let ts := time_string.map Char.toLower
  let isPM := List.isSuffixOf [' ', 'p', 'm'] ts
  let pre_chunk := (ts.splitOn ' ').headD []
  if pre_chunk.contains ':' then
    let chunks := pre_chunk.splitOn ':'
    let hours0 := js_to_number (chunks.headD [])
    if chunks.length > 0 ∧ hours0 ≠ JSVal.nan then
      let hours1 := wrap_number hours0 24
      let hours2 := if hours1.lt (.num 12) && isPM then hours1.add (.num 12) else hours1
      Except.ok
        { hours := hours2,
          minutes := wrap_number (js_to_number (chunks.getD 1 [])) 60,
          seconds := wrap_number (js_to_number (chunks.getD 2 [])) 60,
          milliseconds := wrap_number (js_to_number (chunks.getD 3 [])) 1000 }
    else Except.error time_error
  else Except.error time_error

/-- conversion.day of TimeTask.js. -/
def conversion_day : ℚ := 1000 * 60 * 60 * 24

/-- conversion.hour of TimeTask.js. -/
def conversion_hour : ℚ := 1000 * 60 * 60

/-- conversion.minute of TimeTask.js. -/
def conversion_minute : ℚ := 1000 * 60

/-- conversion.second of TimeTask.js. -/
def conversion_second : ℚ := 1000

/-- conversion.millisecond of TimeTask.js. -/
def conversion_millisecond : ℚ := 1

/-- The conversion table of TimeTask.js, in Object.keys order. -/
def conversionList : List (List Char × ℚ) :=
  [("day".toList, conversion_day),
   ("hour".toList, conversion_hour),
   ("minute".toList, conversion_minute),
   ("second".toList, conversion_second),
   ("millisecond".toList, conversion_millisecond)]

/-- The error message thrown by `#parse_interval_string`. -/
def interval_error : String :=
  "Invalid interval_string. Please specify a time string such as \"5 hours\" or \"10 seconds\""

/-- Embeds `#parse_interval_string(interval_string)` of TimeTask.js.
Split on spaces, require exactly two chunks, parse the amount with a
NaN check, lower-case the metric, and multiply the amount by the
conversion factor of every key that is a prefix of the metric (the
forEach loop over Object.keys, folded with its valid_metric flag). -/
def parse_interval_string (interval_string : List Char) : Except String ℚ :=
  let chunks := interval_string.splitOn ' '
  if chunks.length = 2 then
    let amount := js_to_number (chunks.headD [])
    let metric := (chunks.getD 1 []).map Char.toLower
    match amount with
    | .num a =>
      let result := conversionList.foldl
        (fun acc kv => if kv.1.isPrefixOf metric then (true, acc.2 * kv.2) else acc)
        (false, a)
      if result.1 then Except.ok result.2 else Except.error interval_error
    | .nan => Except.error interval_error
  else Except.error interval_error

/-- Embeds `#point_to_milliseconds(point)` of TimeTask.js. -/
def point_to_milliseconds (point : TimePoint) : JSVal :=
  ((point.hours.mul (.num conversion_hour)).add
      (point.minutes.mul (.num conversion_minute))).add
    ((point.seconds.mul (.num conversion_second)).add
      (point.milliseconds.mul (.num conversion_millisecond)))

/-- Embeds `#execution_offset()` of TimeTask.js, with the impure
`#current_time()` snapshot passed explicitly; future is the stored
time point of the task. -/
def execution_offset (current : TimePoint) (future : TimePoint) : JSVal :=
  let current_msecs := point_to_milliseconds current
  let future_msecs := point_to_milliseconds future
  if current_msecs.lt future_msecs then future_msecs.sub current_msecs
  else ((JSVal.num conversion_day).sub current_msecs).add future_msecs

/-- Embeds `#current_time_tz(tz)` of TimeTask.js, with the impure
collaborators passed explicitly: native is the string rendered by
toLocaleTimeString("en-US") for the timezone, and the three integers
are the local getMinutes/getSeconds/getMilliseconds of the Date. -/
def current_time_tz (native : List Char)
    (local_minutes local_seconds local_milliseconds : Int) : TimePoint :=
  let hours := js_to_number ((native.splitOn ':').headD [])
  let isPM := List.isSuffixOf ['P', 'M'] native
  { hours := hours.add (.num (if isPM then 12 else 0)),
    minutes := .num local_minutes,
    seconds := .num local_seconds,
    milliseconds := .num local_milliseconds }

example : parse_time_string "18:00".toList =
    Except.ok ⟨.num 18, .num 0, .num 0, .num 0⟩ := by decide!
example : parse_time_string "5:30 PM".toList =
    Except.ok ⟨.num 17, .num 30, .num 0, .num 0⟩ := by decide!
example : parse_time_string "12 AM".toList = Except.error time_error := by decide!
example : parse_time_string "12:00 AM".toList =
    Except.ok ⟨.num 12, .num 0, .num 0, .num 0⟩ := by decide!
example : parse_time_string "25:00".toList =
    Except.ok ⟨.num 1, .num 0, .num 0, .num 0⟩ := by decide!
example : parse_time_string "24:00".toList =
    Except.ok ⟨.num 24, .num 0, .num 0, .num 0⟩ := by decide!
example : parse_interval_string "5 hours".toList = Except.ok 18000000 := by decide!
example : parse_interval_string "10 seconds".toList = Except.ok 10000 := by decide!
example : parse_interval_string "2 foo".toList = Except.error interval_error := by decide!
example : parse_interval_string "five hours".toList = Except.error interval_error := by decide!
example : execution_offset ⟨.num 0, .num 0, .num 0, .num 0⟩ ⟨.num 0, .num 0, .num 0, .num 0⟩ =
    .num 86400000 := by decide!
example : js_to_number "1.5".toList = .num (3 / 2) := by decide!
example : js_to_number "+5".toList = .num 5 := by decide!
example : js_to_number "2e3".toList = .num 2000 := by decide!
example : js_to_number "1.5e-2".toList = .num (3 / 200) := by decide!
example : js_to_number "0x10".toList = .num 16 := by decide!
example : js_to_number "-0x10".toList = .nan := by decide!
example : js_to_number "0b101".toList = .num 5 := by decide!
example : js_to_number "Infinity".toList = .nan := by decide!
example : parse_interval_string "1.5 hours".toList = Except.ok 5400000 := by decide!
example : parse_time_string "1.5:00".toList =
    Except.ok ⟨.num (3 / 2), .num 0, .num 0, .num 0⟩ := by decide!
example : parse_time_string "5:30.5".toList =
    Except.ok ⟨.num 5, .num (61 / 2), .num 0, .num 0⟩ := by decide!

/-- The lifecycle states of a TimeTask. -/
inductive TaskState where
  | INITIALIZED
  | PENDING
  | STARTED
  | FINISHED
  | CANCELLED
deriving DecidableEq, Repr

/-- A JS argument as the TimeTask methods type-check it: a string, a
function (identified by a number), or some other value. -/
inductive JSArg where
  | str : List Char → JSArg
  | func : Nat → JSArg
  | other : JSArg
deriving DecidableEq, Repr

/-- The instance state of a TimeTask (the private fields of the class).
Timer handles are booleans meaning "a live timer exists that will fire";
clearTimeout/clearInterval set them to false.  Two event counters are
added to make the observable callback activity provable: firings counts
the passes of the tasks.forEach loop of #execute, and handler_calls
counts the invocations of the finish handler. -/
structure TimeTask where
  time_point : TimePoint
  timezone : Option (List Char)
  timeout : Bool
  interval : Bool
  tasks : List Nat
  repeat_interval : ℚ
  repeat_count : JSNum
  state : TaskState
  next_execution : Option JSVal
  finish_handler : Option Nat
  firings : Nat
  handler_calls : Nat
deriving DecidableEq, Repr

/-- The field initialization of the class body: the state a TimeTask has
right after `new TimeTask(time_string)` parsed the time point. -/
def mk_task (p : TimePoint) : TimeTask :=
  { time_point := p,
    timezone := none,
    timeout := false,
    interval := false,
    tasks := [],
    repeat_interval := conversion_day,
    repeat_count := .fin 0,
    state := .INITIALIZED,
    next_execution := none,
    finish_handler := none,
    firings := 0,
    handler_calls := 0 }

/-- Embeds the constructor `new TimeTask(time_string)`: parse the time
string (propagating its throw) and initialize the fields. -/
def TimeTask.create (time_string : List Char) : Except String TimeTask :=
  (parse_time_string time_string).map mk_task

/-- Embeds `#finish(state = FINISHED)`: clear both timers, empty the
task list, set the state, and invoke the finish handler when the state
argument is FINISHED and a handler is bound. -/
def TimeTask.finish (t : TimeTask) (state : TaskState := .FINISHED) : TimeTask :=
  let t := { t with timeout := false, interval := false }
  let t := { t with tasks := [], state := state }
  if state = .FINISHED ∧ t.finish_handler.isSome then
    { t with handler_calls := t.handler_calls + 1 }
  else t

/-- Embeds `cancel()`. -/
def TimeTask.cancel (t : TimeTask) : TimeTask :=
  t.finish .CANCELLED

/-- Embeds `inTimezone(timezone)`: returns the instance state at
return time together with the thrown error, if any. -/
def TimeTask.inTimezone (t : TimeTask) (timezone : JSArg) : TimeTask × Option String :=
  match timezone with
  | .str s => ({ t with timezone := some s }, none)
  | _ => (t, some ".inTimezone(timezone) -> timezone must be a String type.")

/-- Embeds `repeat(amount = Infinity)` (the caller passes the default
explicitly): rejected when a finish handler is set and the amount is
Infinity, otherwise sets the repeat counter. -/
def TimeTask.repeat (t : TimeTask) (amount : JSNum) : TimeTask × Option String :=
  if t.finish_handler.isSome ∧ amount = .inf then
    (t, some "repeat(amount) -> This method is not allowed after setting a whenFinished() handler.")
  else ({ t with repeat_count := amount }, none)

/-- Embeds `every(interval_string)`: parse the interval (propagating
its throw, before any mutation) and set the repeat interval. -/
def TimeTask.every (t : TimeTask) (interval_string : List Char) : TimeTask × Option String :=
  match parse_interval_string interval_string with
  | .ok milliseconds => ({ t with repeat_interval := milliseconds }, none)
  | .error e => (t, some e)

/-- Embeds `whenFinished(handler)`: requires a function argument and a
repeat counter different from Infinity, then binds the handler. -/
def TimeTask.whenFinished (t : TimeTask) (handler : JSArg) : TimeTask × Option String :=
  match handler with
  | .func f =>
    if t.repeat_count = JSNum.inf then
      (t, some "whenFinished(handler) -> This function will never finish as it has infinite repeats scheduled.")
    else ({ t with finish_handler := some f }, none)
  | _ => (t, some "whenFinished(handler) -> handler must be a Function.")

/-- Embeds `#schedule()`: a no-op once PENDING, otherwise computes the
offset (from the explicit current-time snapshot), moves to PENDING,
records the next execution timestamp and arms the single-shot timer. -/
def TimeTask.schedule (t : TimeTask) (current : TimePoint) (now : Int) : TimeTask :=
  if t.state = .PENDING then t
  else
    let offset := execution_offset current t.time_point
    let t := { t with state := .PENDING }
    let t := { t with next_execution := some ((JSVal.num now).add offset) }
    { t with timeout := true }

/-- Embeds `do(task)`: requires a function argument and a state of
INITIALIZED or PENDING, then queues the task and schedules. -/
def TimeTask.do_op (t : TimeTask) (task : JSArg) (current : TimePoint) (now : Int) :
    TimeTask × Option String :=
  match task with
  | .func f =>
    if t.state ≠ .INITIALIZED ∧ t.state ≠ .PENDING then
      (t, some "You cannot do() more work once a TimeTask has been started or CANCELLED.")
    else
      let t := { t with tasks := t.tasks ++ [f] }
      (t.schedule current now, none)
  | _ => (t, some ".do(task) -> task must be a Function")

/-- Embeds `#execute(first_time = false)`: on the first execution move
to STARTED and, when more than one repetition is pending, consume one
and arm the recurring timer; then run every queued task (counted by
the firings counter) and finish when no repetitions are pending. -/
def TimeTask.execute (t : TimeTask) (first_time : Bool) (now : Int) : TimeTask :=
  let t :=
    if first_time then
      let t := { t with state := .STARTED }
      if t.repeat_count.gt (.fin 1) then
        let t := { t with repeat_count := t.repeat_count.dec }
        let t := { t with next_execution := some (.num (now + t.repeat_interval)) }
        { t with interval := true }
      else t
    else t
  let t := { t with firings := t.firings + 1 }
  if t.repeat_count.lt (.fin 1) then t.finish else t

/-- Embeds `#repeat()` (the recurring-timer callback body): execute all
tasks, consume a repetition, and either finish (when none remain and
the task is still STARTED) or refresh the next execution timestamp. -/
def TimeTask.interval_repeat (t : TimeTask) (now : Int) : TimeTask :=
  let t := t.execute false now
  let t := { t with repeat_count := t.repeat_count.dec }
  if t.repeat_count.lt (.fin 1) ∧ t.state = .STARTED then t.finish
  else { t with next_execution := some (.num (now + t.repeat_interval)) }

/-- The single-shot timer firing: only possible while a live timeout
exists; runs the setTimeout callback of #schedule, which executes with
first_time = true and then drops the handle. -/
def TimeTask.timeout_fire (t : TimeTask) (now : Int) : TimeTask :=
  if t.timeout then
    let t := t.execute true now
    { t with timeout := false }
  else t

/-- The recurring timer firing: only possible while a live interval
exists; runs the setInterval callback, i.e. #repeat. -/
def TimeTask.interval_fire (t : TimeTask) (now : Int) : TimeTask :=
  if t.interval then t.interval_repeat now else t

/-- One interaction with a TimeTask: a public method call or one of the
two timer events.  Method calls that throw leave the instance in the
state it had at the throw (computed by the method embeddings). -/
inductive Call where
  | inTimezone : JSArg → Call
  | do_op : JSArg → TimePoint → Int → Call
  | repeat : JSNum → Call
  | every : List Char → Call
  | whenFinished : JSArg → Call
  | cancel : Call
  | timeout_fire : Int → Call
  | interval_fire : Int → Call
deriving DecidableEq, Repr

/-- The state reached after one interaction. -/
def TimeTask.step (t : TimeTask) : Call → TimeTask
  | .inTimezone a => (t.inTimezone a).1
  | .do_op f current now => (t.do_op f current now).1
  | .repeat n => (t.repeat n).1
  | .every s => (t.every s).1
  | .whenFinished h => (t.whenFinished h).1
  | .cancel => t.cancel
  | .timeout_fire now => t.timeout_fire now
  | .interval_fire now => t.interval_fire now

/-- The state reached after a sequence of interactions. -/
def TimeTask.run (t : TimeTask) : List Call → TimeTask
  | [] => t
  | c :: cs => (t.step c).run cs

/-! ## Arithmetic helper lemmas -/

/-- For a positive divisor, the distance of a rational to the divisor
times the floor of their quotient lies in [0, divisor). -/
theorem sub_floor_bounds (a : ℚ) {l : Int} (hl0 : (0 : ℚ) < (l : ℚ)) :
    0 ≤ a - l * ⌊a / l⌋ ∧ a - l * ⌊a / l⌋ < l := by
  have hla : (l : ℚ) * (a / l) = a := by
    rw [mul_comm]
    exact div_mul_cancel₀ a hl0.ne'
  have hfr : a - l * ⌊a / l⌋ = l * Int.fract (a / l) := by
    rw [Int.fract, mul_sub, hla]
  rw [hfr]
  refine ⟨mul_nonneg hl0.le (Int.fract_nonneg _), ?_⟩
  have h1 := mul_lt_mul_of_pos_left (Int.fract_lt_one (a / (l : ℚ))) hl0
  simpa using h1

/-- The wrap function keeps a rational input inside the CLOSED interval
[0, limit]; the upper end is attained (for input = limit, and for
negative multiples of the limit), which is what distinguishes the code
from the specified half-open interval. -/
theorem wrap_num_bounds (q : ℚ) (limit : Int) (hl : 0 < limit) :
    ∃ m : ℚ, wrap_number (.num q) limit = .num m ∧ 0 ≤ m ∧ m ≤ (limit : ℚ) := by
  have hl0 : (0 : ℚ) < (limit : ℚ) := by exact_mod_cast hl
  unfold wrap_number
  by_cases h1 : (JSVal.num (limit : ℚ)).lt (.num q) = true
  · rw [if_pos h1]
    simp only [JSVal.lt, decide_eq_true_eq] at h1
    unfold JSVal.jmod
    dsimp only
    rw [if_neg (by omega : ¬ limit = 0)]
    have hqt : jsTrunc (q / limit) = ⌊q / (limit : ℚ)⌋ := by
      rw [jsTrunc, if_pos (div_nonneg (le_of_lt (lt_trans hl0 h1)) hl0.le)]
    rw [hqt]
    obtain ⟨hb1, hb2⟩ := sub_floor_bounds q hl0
    exact ⟨_, rfl, hb1, hb2.le⟩
  · rw [if_neg (by simpa using h1)]
    simp only [JSVal.lt, decide_eq_true_eq, not_lt] at h1
    by_cases h2 : (JSVal.num q).lt (.num 0) = true
    · rw [if_pos h2]
      simp only [JSVal.lt, decide_eq_true_eq] at h2
      unfold JSVal.jmod
      dsimp only
      have hqt : jsTrunc (q / limit) = -⌊-q / (limit : ℚ)⌋ := by
        rw [jsTrunc, if_neg (not_le.mpr (div_neg_of_neg_of_pos h2 hl0)), neg_div]
      rw [if_neg (by omega : ¬ limit = 0), hqt]
      simp only [JSVal.add]
      obtain ⟨hb1, hb2⟩ := sub_floor_bounds (-q) hl0
      refine ⟨_, rfl, ?_, ?_⟩
      · push_cast at hb1 hb2 ⊢
        linarith
      · push_cast at hb1 hb2 ⊢
        linarith
    · rw [if_neg (by simpa using h2)]
      simp only [JSVal.lt, decide_eq_true_eq, not_lt] at h2
      exact ⟨q, rfl, h2, h1⟩

/-- Wrapping NaN returns NaN (both comparisons are false on NaN). -/
theorem wrap_nan (limit : Int) : wrap_number .nan limit = .nan := rfl

/-- A parsed field is either NaN (a present but non-numeric component,
which the code does not reject) or a rational inside the CLOSED wrap
range [0, limit]. -/
def fieldBounded (v : JSVal) (limit : Int) : Bool :=
  match v with
  | .num m => decide (0 ≤ m) && decide (m ≤ (limit : ℚ))
  | .nan => true

/-- Wrapping any value lands in the closed range, NaN staying NaN. -/
theorem fieldBounded_wrap (v : JSVal) (limit : Int) (hl : 0 < limit) :
    fieldBounded (wrap_number v limit) limit = true := by
  cases v with
  | nan => rfl
  | num n =>
    obtain ⟨m, hw, h0, h1⟩ := wrap_num_bounds n limit hl
    rw [hw]
    simp [fieldBounded, h0, h1]

/-- Every successful parse yields an hours field that is a rational in
[0, 24] (the NaN check applies only to hours; "1.5:00" gives 1.5) and
remaining fields that are NaN or rationals in the closed ranges
[0, 60], [0, 60], [0, 1000]. -/
theorem parse_time_fields (s : List Char) (p : TimePoint)
    (h : parse_time_string s = Except.ok p) :
    (∃ hh : ℚ, p.hours = .num hh ∧ 0 ≤ hh ∧ hh ≤ 24) ∧
    fieldBounded p.minutes 60 = true ∧
    fieldBounded p.seconds 60 = true ∧
    fieldBounded p.milliseconds 1000 = true := by
  simp only [parse_time_string] at h
  split at h
  case isFalse => exact absurd h (by simp)
  case isTrue =>
    split at h
    case isFalse => exact absurd h (by simp)
    case isTrue hg =>
      injection h with h
      subst h
      refine ⟨?_, fieldBounded_wrap _ 60 (by norm_num),
        fieldBounded_wrap _ 60 (by norm_num), fieldBounded_wrap _ 1000 (by norm_num)⟩
      rcases hval : js_to_number (((((s.map Char.toLower).splitOn ' ').headD []).splitOn ':').headD [])
        with n | _
      · obtain ⟨m, hw, hm0, hm1⟩ := wrap_num_bounds n 24 (by norm_num)
        rw [show ((24 : Int) : ℚ) = (24 : ℚ) by norm_num] at hm1
        simp only [hval, hw]
        by_cases hc : ((JSVal.num m).lt (.num 12) && List.isSuffixOf [' ', 'p', 'm']
            (s.map Char.toLower)) = true
        · rw [if_pos hc]
          simp only [Bool.and_eq_true, JSVal.lt, decide_eq_true_eq] at hc
          exact ⟨m + 12, rfl, by linarith, by linarith [hc.1]⟩
        · rw [if_neg hc]
          exact ⟨m, rfl, hm0, hm1⟩
      · exact absurd hval hg.2

/-! ## Claim C1 -/

/-- Milliseconds-since-midnight of a time point with integer-valued
fields, as one integer. -/
theorem point_ms_int (h m s ms : Int) :
    point_to_milliseconds ⟨.num (h : ℚ), .num (m : ℚ), .num (s : ℚ), .num (ms : ℚ)⟩ =
      .num (((h * 3600000 + m * 60000 + s * 1000 + ms : Int) : ℚ)) := by
  unfold point_to_milliseconds conversion_hour conversion_minute conversion_second
    conversion_millisecond
  simp only [JSVal.mul, JSVal.add]
  congr 1
  push_cast
  ring

/-- C1 counterexample: when the current time exactly equals the parsed
target (midnight here, a point produced by the parser from "0:00"), the
next-occurrence offset is the FULL 86,400,000 ms, which is not strictly
less than 86,400,000 — so the offset is not always inside
[0, 86400000) as the claim states. -/
theorem C1_counterexample :
    parse_time_string "0:00".toList =
      Except.ok ⟨.num 0, .num 0, .num 0, .num 0⟩ ∧
    execution_offset ⟨.num 0, .num 0, .num 0, .num 0⟩
      ⟨.num 0, .num 0, .num 0, .num 0⟩ = .num 86400000 ∧
    ¬ ((86400000 : ℚ) < 86400000) :=
  ⟨by decide!, by decide!, by decide!⟩

/-- C1 (amended): for every current and target time-of-day with
integer fields in the normal half-open ranges, the next-occurrence
offset of #execution_offset is strictly positive and AT MOST
86,400,000 ms, and it equals the full 86,400,000 exactly when the
current milliseconds-since-midnight equal the target ones (the equal
case wraps to the next day rather than firing now). -/
theorem C1_offset_range
    (ch cm cs cms fh fm fs fms : Int)
    (hch : 0 ≤ ch ∧ ch < 24) (hcm : 0 ≤ cm ∧ cm < 60)
    (hcs : 0 ≤ cs ∧ cs < 60) (hcms : 0 ≤ cms ∧ cms < 1000)
    (hfh : 0 ≤ fh ∧ fh < 24) (hfm : 0 ≤ fm ∧ fm < 60)
    (hfs : 0 ≤ fs ∧ fs < 60) (hfms : 0 ≤ fms ∧ fms < 1000) :
    ∃ off : Int,
      execution_offset ⟨.num (ch : ℚ), .num (cm : ℚ), .num (cs : ℚ), .num (cms : ℚ)⟩
          ⟨.num (fh : ℚ), .num (fm : ℚ), .num (fs : ℚ), .num (fms : ℚ)⟩ =
        .num (off : ℚ) ∧
      0 < off ∧ off ≤ 86400000 ∧
      (off = 86400000 ↔
        ch * 3600000 + cm * 60000 + cs * 1000 + cms =
        fh * 3600000 + fm * 60000 + fs * 1000 + fms) := by
  unfold execution_offset
  rw [point_ms_int, point_ms_int]
  simp only [JSVal.lt, JSVal.sub, JSVal.add, conversion_day]
  split
  case isTrue h =>
    simp only [decide_eq_true_eq, Int.cast_lt] at h
    refine ⟨fh * 3600000 + fm * 60000 + fs * 1000 + fms -
      (ch * 3600000 + cm * 60000 + cs * 1000 + cms), ?_, by omega, by omega,
      by constructor <;> intro <;> omega⟩
    congr 1
    push_cast
    ring
  case isFalse h =>
    simp only [decide_eq_true_eq, not_lt, Int.cast_le] at h
    refine ⟨86400000 - (ch * 3600000 + cm * 60000 + cs * 1000 + cms) +
      (fh * 3600000 + fm * 60000 + fs * 1000 + fms), ?_, by omega, by omega,
      by constructor <;> intro <;> omega⟩
    congr 1
    push_cast
    norm_num

/-- Witness for C1_offset_range at current 00:00:00.000 and target
01:00:00.000. -/
theorem C1_offset_range_witness :
    ∃ off : Int,
      execution_offset
          ⟨.num ((0 : Int) : ℚ), .num ((0 : Int) : ℚ),
            .num ((0 : Int) : ℚ), .num ((0 : Int) : ℚ)⟩
          ⟨.num ((1 : Int) : ℚ), .num ((0 : Int) : ℚ),
            .num ((0 : Int) : ℚ), .num ((0 : Int) : ℚ)⟩ =
        .num (off : ℚ) ∧
      0 < off ∧ off ≤ 86400000 ∧
      (off = 86400000 ↔
        (0 : Int) * 3600000 + 0 * 60000 + 0 * 1000 + 0 =
        1 * 3600000 + 0 * 60000 + 0 * 1000 + 0) :=
  C1_offset_range 0 0 0 0 1 0 0 0 (by decide!) (by decide!) (by decide!) (by decide!)
    (by decide!) (by decide!) (by decide!) (by decide!)

/-! ## Claim C4 -/

/-- C4 counterexample: #wrap_number uses a strict input > limit test, so
an input equal to the limit is returned unchanged and a negative
multiple of the limit lands on the limit itself, both OUTSIDE
[0, limit); accordingly the accepted string "24:00" parses to an hours
field of 24, not a value in [0, 24). -/
theorem C4_counterexample :
    wrap_number (.num 24) 24 = .num 24 ∧
    wrap_number (.num (-24)) 24 = .num 24 ∧
    parse_time_string "24:00".toList =
      Except.ok ⟨.num 24, .num 0, .num 0, .num 0⟩ ∧
    ¬ ((24 : Int) < 24) :=
  ⟨by decide!, by decide!, by decide!, by decide!⟩

/-- C4 (amended): for every numeric (rational) input and positive
limit, #wrap_number returns a value in the CLOSED interval [0, limit]
(the limit itself is attained at boundary inputs); consequently every
accepted time string yields hours as a rational in [0, 24] — possibly
fractional, e.g. "1.5:00" gives hours 1.5 — and minutes, seconds and
milliseconds each NaN (for a present non-numeric component, which only
the hours check rejects) or a rational in [0, 60], [0, 60], [0, 1000]
respectively, e.g. "5:30.5" gives minutes 30.5. -/
theorem C4_wrap_closed_range :
    (∀ (q : ℚ) (limit : Int), 0 < limit →
      ∃ m : ℚ, wrap_number (.num q) limit = .num m ∧ 0 ≤ m ∧ m ≤ (limit : ℚ)) ∧
    (∀ (s : List Char) (p : TimePoint), parse_time_string s = Except.ok p →
      (∃ hh : ℚ, p.hours = .num hh ∧ 0 ≤ hh ∧ hh ≤ 24) ∧
      fieldBounded p.minutes 60 = true ∧
      fieldBounded p.seconds 60 = true ∧
      fieldBounded p.milliseconds 1000 = true) :=
  ⟨wrap_num_bounds, parse_time_fields⟩

/-- Witness for C4_wrap_closed_range at input 75, limit 60, at the
accepted string "5:30 pm", and at the accepted fractional string
"5:30.5" (whose minutes are the non-integer rational 30.5). -/
theorem C4_wrap_closed_range_witness :
    (∃ m : ℚ, wrap_number (.num 75) 60 = .num m ∧ 0 ≤ m ∧ m ≤ ((60 : Int) : ℚ)) ∧
    ((∃ hh : ℚ, (⟨.num 17, .num 30, .num 0, .num 0⟩ : TimePoint).hours = .num hh ∧
        0 ≤ hh ∧ hh ≤ 24) ∧
      fieldBounded (⟨.num 17, .num 30, .num 0, .num 0⟩ : TimePoint).minutes 60 = true ∧
      fieldBounded (⟨.num 17, .num 30, .num 0, .num 0⟩ : TimePoint).seconds 60 = true ∧
      fieldBounded (⟨.num 17, .num 30, .num 0, .num 0⟩ : TimePoint).milliseconds 1000 = true) ∧
    ((∃ hh : ℚ, (⟨.num 5, .num (61 / 2), .num 0, .num 0⟩ : TimePoint).hours = .num hh ∧
        0 ≤ hh ∧ hh ≤ 24) ∧
      fieldBounded (⟨.num 5, .num (61 / 2), .num 0, .num 0⟩ : TimePoint).minutes 60 = true ∧
      fieldBounded (⟨.num 5, .num (61 / 2), .num 0, .num 0⟩ : TimePoint).seconds 60 = true ∧
      fieldBounded (⟨.num 5, .num (61 / 2), .num 0, .num 0⟩ : TimePoint).milliseconds 1000 = true) :=
  ⟨C4_wrap_closed_range.1 75 60 (by norm_num),
   C4_wrap_closed_range.2 "5:30 pm".toList ⟨.num 17, .num 30, .num 0, .num 0⟩ (by decide!),
   C4_wrap_closed_range.2 "5:30.5".toList ⟨.num 5, .num (61 / 2), .num 0, .num 0⟩ (by decide!)⟩

/-! ## Claim C5 -/

/-- C5 counterexample: the bare string "12 AM" does NOT parse to
{12,0,0,0} — its pre-chunk "12" contains no ":" so #parse_time_string
throws its parse error instead. -/
theorem C5_counterexample :
    parse_time_string "12 AM".toList = Except.error time_error ∧
    parse_time_string "12 AM".toList ≠
      Except.ok ⟨.num 12, .num 0, .num 0, .num 0⟩ := by decide!

/-- C5 (amended): for every accepted input whose lower-cased form ends
in " pm" and whose wrapped hour value m is below 12, the parsed hours
are m + 12; "12:00 PM" stays at 12 and "12:00 AM" parses to {12,0,0,0}
(not down-converted to 0); but the colon-free strings "12 AM" and
"12 PM" of the claim are rejected by the parser. -/
theorem C5_meridiem :
    (∀ (s : List Char) (p : TimePoint) (m : ℚ),
      parse_time_string s = Except.ok p →
      List.isSuffixOf [' ', 'p', 'm'] (s.map Char.toLower) = true →
      wrap_number (js_to_number
        (((((s.map Char.toLower).splitOn ' ').headD []).splitOn ':').headD [])) 24 = .num m →
      m < 12 →
      p.hours = .num (m + 12)) ∧
    parse_time_string "12:00 PM".toList =
      Except.ok ⟨.num 12, .num 0, .num 0, .num 0⟩ ∧
    parse_time_string "12:00 AM".toList =
      Except.ok ⟨.num 12, .num 0, .num 0, .num 0⟩ ∧
    parse_time_string "12 AM".toList = Except.error time_error ∧
    parse_time_string "12 PM".toList = Except.error time_error := by
  refine ⟨?_, by decide!, by decide!, by decide!, by decide!⟩
  intro s p m h hpm hw hm
  simp only [parse_time_string] at h
  split at h
  case isFalse => exact absurd h (by simp)
  case isTrue =>
    split at h
    case isFalse => exact absurd h (by simp)
    case isTrue hg =>
      injection h with h
      subst h
      simp only [hw, hpm]
      rw [if_pos (by simp [JSVal.lt, hm])]
      rfl

/-- Witness for the general clause of C5_meridiem at "5:30 pm". -/
theorem C5_meridiem_witness :
    (⟨.num 17, .num 30, .num 0, .num 0⟩ : TimePoint).hours = .num (5 + 12) :=
  C5_meridiem.1 "5:30 pm".toList ⟨.num 17, .num 30, .num 0, .num 0⟩ 5
    (by decide!) (by decide!) (by decide!) (by decide!)

/-! ## Claim C9 -/

/-- C9: #current_time_tz adds 12 to the rendered hour whenever the
rendered string carries a PM marker, unconditionally; a rendered
"12:30:45 PM" therefore yields hours = 24 (outside [0,24)) and a
rendered "12:30:45 AM" yields hours = 12. -/
theorem C9_current_time_tz :
    (∀ (native : List Char) (m s ms : Int) (h : ℚ),
      js_to_number ((native.splitOn ':').headD []) = .num h →
      List.isSuffixOf ['P', 'M'] native = true →
      (current_time_tz native m s ms).hours = .num (h + 12)) ∧
    (current_time_tz "12:30:45 PM".toList 30 45 0).hours = .num 24 ∧
    (current_time_tz "12:30:45 AM".toList 30 45 0).hours = .num 12 ∧
    ¬ ((24 : Int) < 24) := by
  refine ⟨?_, by decide!, by decide!, by decide!⟩
  intro native m s ms h hh hpm
  simp only [current_time_tz, hpm]
  rw [hh]
  rfl

/-- Witness for the general clause of C9_current_time_tz at a rendered
noon-hour PM string. -/
theorem C9_current_time_tz_witness :
    (current_time_tz "12:30:45 PM".toList 30 45 123).hours = .num (12 + 12) :=
  C9_current_time_tz.1 "12:30:45 PM".toList 30 45 123 12 (by decide!) (by decide!)

/-! ## Claim C10 -/

/-- C10: only do() consults the lifecycle state.  inTimezone, repeat,
every and whenFinished succeed and mutate the instance for EVERY state
(the task t below is unrestricted), failing only on their own argument
validation, while do() raises in every state other than INITIALIZED
and PENDING. -/
theorem C10_no_state_checks (t : TimeTask) :
    (∀ s : List Char, t.inTimezone (.str s) = ({ t with timezone := some s }, none)) ∧
    (∀ n : JSNum, ¬(t.finish_handler.isSome = true ∧ n = JSNum.inf) →
      t.repeat n = ({ t with repeat_count := n }, none)) ∧
    (∀ (s : List Char) (ms : ℚ), parse_interval_string s = Except.ok ms →
      t.every s = ({ t with repeat_interval := ms }, none)) ∧
    (∀ f : Nat, t.repeat_count ≠ JSNum.inf →
      t.whenFinished (.func f) = ({ t with finish_handler := some f }, none)) ∧
    (∀ (f : Nat) (current : TimePoint) (now : Int),
      t.state ≠ .INITIALIZED → t.state ≠ .PENDING →
      t.do_op (.func f) current now =
        (t, some "You cannot do() more work once a TimeTask has been started or CANCELLED.")) := by
  refine ⟨fun s => rfl, ?_, ?_, ?_, ?_⟩
  · intro n hn
    unfold TimeTask.repeat
    rw [if_neg hn]
  · intro s ms hms
    simp only [TimeTask.every, hms]
  · intro f hf
    simp only [TimeTask.whenFinished]
    rw [if_neg hf]
  · intro f current now h1 h2
    simp only [TimeTask.do_op]
    rw [if_pos ⟨h1, h2⟩]

/-- A concrete freshly-constructed task (the parse of "5:00"). -/
def sample_task : TimeTask := mk_task ⟨.num 5, .num 0, .num 0, .num 0⟩

/-- Witness for C10_no_state_checks: a state-mutating call of each of
the four unchecked methods on concrete tasks, and the do() rejection on
a cancelled task. -/
theorem C10_no_state_checks_witness :
    (sample_task.cancel.inTimezone (.str "UTC".toList) =
      ({ sample_task.cancel with timezone := some "UTC".toList }, none)) ∧
    (sample_task.cancel.repeat (.fin 3) =
      ({ sample_task.cancel with repeat_count := .fin 3 }, none)) ∧
    (sample_task.cancel.every "5 hours".toList =
      ({ sample_task.cancel with repeat_interval := 18000000 }, none)) ∧
    (sample_task.cancel.whenFinished (.func 7) =
      ({ sample_task.cancel with finish_handler := some 7 }, none)) ∧
    (sample_task.cancel.do_op (.func 0) ⟨.num 0, .num 0, .num 0, .num 0⟩ 0 =
      (sample_task.cancel,
        some "You cannot do() more work once a TimeTask has been started or CANCELLED.")) :=
  ⟨(C10_no_state_checks sample_task.cancel).1 "UTC".toList,
   (C10_no_state_checks sample_task.cancel).2.1 (.fin 3) (by decide!),
   (C10_no_state_checks sample_task.cancel).2.2.1 "5 hours".toList 18000000 (by decide!),
   (C10_no_state_checks sample_task.cancel).2.2.2.1 7 (by decide!),
   (C10_no_state_checks sample_task.cancel).2.2.2.2 0 ⟨.num 0, .num 0, .num 0, .num 0⟩ 0
     (by decide!) (by decide!)⟩

/-! ## Claim C7 -/

/-- C7: repeat(Infinity) throws when a finish handler is set, and
whenFinished throws when the repeat counter is Infinity (mutual
exclusion in both directions); and every synchronous validation
failure of the builder methods — including do()/whenFinished with a
non-function argument and every() with a malformed string — returns
with the instance exactly as it was. -/
theorem C7_mutual_exclusion (t : TimeTask) :
    (t.finish_handler.isSome = true →
      (t.repeat .inf).1 = t ∧ (t.repeat .inf).2.isSome = true) ∧
    (t.repeat_count = JSNum.inf → ∀ f : Nat,
      (t.whenFinished (.func f)).1 = t ∧ (t.whenFinished (.func f)).2.isSome = true) ∧
    (∀ a : JSArg, (∀ f : Nat, a ≠ .func f) → ∀ (current : TimePoint) (now : Int),
      (t.do_op a current now).1 = t ∧ (t.do_op a current now).2.isSome = true) ∧
    (∀ a : JSArg, (∀ f : Nat, a ≠ .func f) →
      (t.whenFinished a).1 = t ∧ (t.whenFinished a).2.isSome = true) ∧
    (∀ s : List Char, parse_interval_string s = Except.error interval_error →
      (t.every s).1 = t ∧ (t.every s).2.isSome = true) ∧
    (∀ a : JSArg, (t.inTimezone a).2.isSome = true → (t.inTimezone a).1 = t) ∧
    (∀ n : JSNum, (t.repeat n).2.isSome = true → (t.repeat n).1 = t) ∧
    (∀ a : JSArg, (t.whenFinished a).2.isSome = true → (t.whenFinished a).1 = t) ∧
    (∀ s : List Char, (t.every s).2.isSome = true → (t.every s).1 = t) ∧
    (∀ (a : JSArg) (current : TimePoint) (now : Int),
      (t.do_op a current now).2.isSome = true → (t.do_op a current now).1 = t) := by
  refine ⟨?_, ?_, ?_, ?_, ?_, ?_, ?_, ?_, ?_, ?_⟩
  · intro hs
    simp [TimeTask.repeat, hs]
  · intro hc f
    simp [TimeTask.whenFinished, hc]
  · intro a ha current now
    cases a with
    | func f => exact absurd rfl (ha f)
    | str s => exact ⟨rfl, rfl⟩
    | other => exact ⟨rfl, rfl⟩
  · intro a ha
    cases a with
    | func f => exact absurd rfl (ha f)
    | str s => exact ⟨rfl, rfl⟩
    | other => exact ⟨rfl, rfl⟩
  · intro s hs
    simp [TimeTask.every, hs]
  · intro a ha
    cases a with
    | str s => simp [TimeTask.inTimezone] at ha
    | func f => rfl
    | other => rfl
  · intro n hn
    unfold TimeTask.repeat at hn ⊢
    by_cases h : t.finish_handler.isSome = true ∧ n = JSNum.inf
    · rw [if_pos h]
    · rw [if_neg h] at hn
      simp at hn
  · intro a ha
    cases a with
    | func f =>
      unfold TimeTask.whenFinished at ha ⊢
      dsimp only at ha ⊢
      by_cases h : t.repeat_count = JSNum.inf
      · rw [if_pos h]
      · rw [if_neg h] at ha
        simp at ha
    | str s => rfl
    | other => rfl
  · intro s hs
    unfold TimeTask.every at hs ⊢
    cases hp : parse_interval_string s with
    | ok v =>
      rw [hp] at hs
      simp at hs
    | error e => rfl
  · intro a current now ha
    cases a with
    | func f =>
      unfold TimeTask.do_op at ha ⊢
      dsimp only at ha ⊢
      by_cases h : t.state ≠ TaskState.INITIALIZED ∧ t.state ≠ TaskState.PENDING
      · rw [if_pos h]
      · rw [if_neg h] at ha
        simp at ha
    | str s => rfl
    | other => rfl

/-- A concrete task with a bound finish handler. -/
def sample_with_handler : TimeTask := (sample_task.whenFinished (.func 7)).1

/-- A concrete task with an infinite repeat counter. -/
def sample_inf : TimeTask := (sample_task.repeat .inf).1

/-- Witness for C7_mutual_exclusion: concrete rejections that leave the
concrete instances untouched. -/
theorem C7_mutual_exclusion_witness :
    ((sample_with_handler.repeat .inf).1 = sample_with_handler ∧
      (sample_with_handler.repeat .inf).2.isSome = true) ∧
    ((sample_inf.whenFinished (.func 0)).1 = sample_inf ∧
      (sample_inf.whenFinished (.func 0)).2.isSome = true) ∧
    ((sample_task.do_op .other ⟨.num 0, .num 0, .num 0, .num 0⟩ 0).1 = sample_task ∧
      (sample_task.do_op .other ⟨.num 0, .num 0, .num 0, .num 0⟩ 0).2.isSome = true) ∧
    ((sample_task.whenFinished .other).1 = sample_task ∧
      (sample_task.whenFinished .other).2.isSome = true) ∧
    ((sample_task.every "2 foo".toList).1 = sample_task ∧
      (sample_task.every "2 foo".toList).2.isSome = true) :=
  ⟨(C7_mutual_exclusion sample_with_handler).1 (by decide!),
   (C7_mutual_exclusion sample_inf).2.1 (by decide!) 0,
   (C7_mutual_exclusion sample_task).2.2.1 .other (by intro f h; exact JSArg.noConfusion h)
     ⟨.num 0, .num 0, .num 0, .num 0⟩ 0,
   (C7_mutual_exclusion sample_task).2.2.2.1 .other (by intro f h; exact JSArg.noConfusion h),
   (C7_mutual_exclusion sample_task).2.2.2.2.1 "2 foo".toList (by decide!)⟩

/-! ## Claim C6 -/

/-- Two lists neither of which leads the other cannot both lead the
same list. -/
theorem not_both_pre {k1 k2 m : List Char}
    (h12 : k1.isPrefixOf k2 = false) (h21 : k2.isPrefixOf k1 = false)
    (h1 : k1.isPrefixOf m = true) (h2 : k2.isPrefixOf m = true) : False := by
  rw [List.isPrefixOf_iff_prefix] at h1 h2
  rcases List.prefix_or_prefix_of_prefix h1 h2 with h | h
  · rw [← List.isPrefixOf_iff_prefix, h12] at h
    exact Bool.noConfusion h
  · rw [← List.isPrefixOf_iff_prefix, h21] at h
    exact Bool.noConfusion h

/-- Converts a false isPrefixOf test to the negated leading relation. -/
theorem npre_of_false {k m : List Char} (h : k.isPrefixOf m = false) : ¬(k <+: m) := by
  rw [← List.isPrefixOf_iff_prefix]
  simp [h]

/-- Converts a true isPrefixOf test to the leading relation. -/
theorem pre_of_true {k m : List Char} (h : k.isPrefixOf m = true) : k <+: m :=
  List.isPrefixOf_iff_prefix.mp h

/-- When no unit name leads the metric, the forEach fold of
#parse_interval_string leaves (valid_metric, amount) untouched. -/
theorem fold_no_match (metric : List Char) (a : ℚ)
    (h : ∀ kv ∈ conversionList, kv.1.isPrefixOf metric = false) :
    conversionList.foldl
      (fun acc kv => if kv.1.isPrefixOf metric then (true, acc.2 * kv.2) else acc)
      (false, a) = (false, a) := by
  have hd : ¬((['d', 'a', 'y'] : List Char) <+: metric) :=
    npre_of_false (h ("day".toList, conversion_day) (by simp [conversionList]))
  have hh : ¬((['h', 'o', 'u', 'r'] : List Char) <+: metric) :=
    npre_of_false (h ("hour".toList, conversion_hour) (by simp [conversionList]))
  have hm : ¬((['m', 'i', 'n', 'u', 't', 'e'] : List Char) <+: metric) :=
    npre_of_false (h ("minute".toList, conversion_minute) (by simp [conversionList]))
  have hs : ¬((['s', 'e', 'c', 'o', 'n', 'd'] : List Char) <+: metric) :=
    npre_of_false (h ("second".toList, conversion_second) (by simp [conversionList]))
  have hms : ¬((['m', 'i', 'l', 'l', 'i', 's', 'e', 'c', 'o', 'n', 'd'] : List Char) <+: metric) :=
    npre_of_false (h ("millisecond".toList, conversion_millisecond) (by simp [conversionList]))
  simp [conversionList, hd, hh, hm, hs, hms]

/-- When one unit name leads the metric, the fold multiplies the amount
by exactly that unit factor (the five unit names are mutually
exclusive as leading segments of any one metric). -/
theorem fold_match (metric : List Char) (a : ℚ) (kv : List Char × ℚ)
    (hmem : kv ∈ conversionList) (hpre : kv.1.isPrefixOf metric = true) :
    conversionList.foldl
      (fun acc kv => if kv.1.isPrefixOf metric then (true, acc.2 * kv.2) else acc)
      (false, a) = (true, a * kv.2) := by
  have excl : ∀ k2 : List Char, kv.1.isPrefixOf k2 = false → k2.isPrefixOf kv.1 = false →
      ¬(k2 <+: metric) := by
    intro k2 h12 h21
    refine npre_of_false ?_
    by_contra hc
    rw [Bool.not_eq_false] at hc
    exact not_both_pre h12 h21 hpre hc
  simp only [conversionList, List.mem_cons, List.not_mem_nil, or_false] at hmem
  rcases hmem with h | h | h | h | h <;> subst h
  · have hp : (['d', 'a', 'y'] : List Char) <+: metric := pre_of_true hpre
    have hh : ¬((['h', 'o', 'u', 'r'] : List Char) <+: metric) :=
      excl "hour".toList (by decide!) (by decide!)
    have hm : ¬((['m', 'i', 'n', 'u', 't', 'e'] : List Char) <+: metric) :=
      excl "minute".toList (by decide!) (by decide!)
    have hs : ¬((['s', 'e', 'c', 'o', 'n', 'd'] : List Char) <+: metric) :=
      excl "second".toList (by decide!) (by decide!)
    have hms : ¬((['m', 'i', 'l', 'l', 'i', 's', 'e', 'c', 'o', 'n', 'd'] : List Char) <+: metric) :=
      excl "millisecond".toList (by decide!) (by decide!)
    simp [conversionList, hp, hh, hm, hs, hms]
  · have hp : (['h', 'o', 'u', 'r'] : List Char) <+: metric := pre_of_true hpre
    have hd : ¬((['d', 'a', 'y'] : List Char) <+: metric) :=
      excl "day".toList (by decide!) (by decide!)
    have hm : ¬((['m', 'i', 'n', 'u', 't', 'e'] : List Char) <+: metric) :=
      excl "minute".toList (by decide!) (by decide!)
    have hs : ¬((['s', 'e', 'c', 'o', 'n', 'd'] : List Char) <+: metric) :=
      excl "second".toList (by decide!) (by decide!)
    have hms : ¬((['m', 'i', 'l', 'l', 'i', 's', 'e', 'c', 'o', 'n', 'd'] : List Char) <+: metric) :=
      excl "millisecond".toList (by decide!) (by decide!)
    simp [conversionList, hp, hd, hm, hs, hms]
  · have hp : (['m', 'i', 'n', 'u', 't', 'e'] : List Char) <+: metric := pre_of_true hpre
    have hd : ¬((['d', 'a', 'y'] : List Char) <+: metric) :=
      excl "day".toList (by decide!) (by decide!)
    have hh : ¬((['h', 'o', 'u', 'r'] : List Char) <+: metric) :=
      excl "hour".toList (by decide!) (by decide!)
    have hs : ¬((['s', 'e', 'c', 'o', 'n', 'd'] : List Char) <+: metric) :=
      excl "second".toList (by decide!) (by decide!)
    have hms : ¬((['m', 'i', 'l', 'l', 'i', 's', 'e', 'c', 'o', 'n', 'd'] : List Char) <+: metric) :=
      excl "millisecond".toList (by decide!) (by decide!)
    simp [conversionList, hp, hd, hh, hs, hms]
  · have hp : (['s', 'e', 'c', 'o', 'n', 'd'] : List Char) <+: metric := pre_of_true hpre
    have hd : ¬((['d', 'a', 'y'] : List Char) <+: metric) :=
      excl "day".toList (by decide!) (by decide!)
    have hh : ¬((['h', 'o', 'u', 'r'] : List Char) <+: metric) :=
      excl "hour".toList (by decide!) (by decide!)
    have hm : ¬((['m', 'i', 'n', 'u', 't', 'e'] : List Char) <+: metric) :=
      excl "minute".toList (by decide!) (by decide!)
    have hms : ¬((['m', 'i', 'l', 'l', 'i', 's', 'e', 'c', 'o', 'n', 'd'] : List Char) <+: metric) :=
      excl "millisecond".toList (by decide!) (by decide!)
    simp [conversionList, hp, hd, hh, hm, hms]
  · have hp : (['m', 'i', 'l', 'l', 'i', 's', 'e', 'c', 'o', 'n', 'd'] : List Char) <+: metric :=
      pre_of_true hpre
    have hd : ¬((['d', 'a', 'y'] : List Char) <+: metric) :=
      excl "day".toList (by decide!) (by decide!)
    have hh : ¬((['h', 'o', 'u', 'r'] : List Char) <+: metric) :=
      excl "hour".toList (by decide!) (by decide!)
    have hm : ¬((['m', 'i', 'n', 'u', 't', 'e'] : List Char) <+: metric) :=
      excl "minute".toList (by decide!) (by decide!)
    have hs : ¬((['s', 'e', 'c', 'o', 'n', 'd'] : List Char) <+: metric) :=
      excl "second".toList (by decide!) (by decide!)
    simp [conversionList, hp, hd, hh, hm, hs]

/-- Success of #parse_interval_string: exactly two space-separated
chunks, a numeric amount, and a unit led by one of the conversion
names yield amount times that unit factor. -/
theorem parse_interval_ok (s c0 c1 : List Char) (n : ℚ) (kv : List Char × ℚ)
    (hsplit : s.splitOn ' ' = [c0, c1])
    (hnum : js_to_number c0 = .num n)
    (hmem : kv ∈ conversionList)
    (hpre : kv.1.isPrefixOf (c1.map Char.toLower) = true) :
    parse_interval_string s = Except.ok (n * kv.2) := by
  unfold parse_interval_string
  rw [hsplit]
  rw [if_pos (by simp)]
  simp only [List.headD_cons, List.getD_cons_succ, List.getD_cons_zero]
  rw [hnum]
  dsimp only
  rw [fold_match (c1.map Char.toLower) n kv hmem hpre]
  rfl

/-- Failure of #parse_interval_string under any of the three failure
conditions of the code. -/
theorem parse_interval_err (s : List Char)
    (h : (s.splitOn ' ').length ≠ 2 ∨
         js_to_number ((s.splitOn ' ').headD []) = JSVal.nan ∨
         ∀ kv ∈ conversionList,
           kv.1.isPrefixOf (((s.splitOn ' ').getD 1 []).map Char.toLower) = false) :
    parse_interval_string s = Except.error interval_error := by
  unfold parse_interval_string
  rcases h with h | h | h
  · rw [if_neg h]
  · by_cases hl : (s.splitOn ' ').length = 2
    · rw [if_pos hl, h]
    · rw [if_neg hl]
  · by_cases hl : (s.splitOn ' ').length = 2
    · rw [if_pos hl]
      cases hn : js_to_number ((s.splitOn ' ').headD []) with
      | nan => rfl
      | num a =>
        dsimp only
        rw [fold_no_match _ a h]
        rfl
    · rw [if_neg hl]

/-- The error characterization is exact: #parse_interval_string throws
precisely when the chunk count differs from two, the amount is NaN, or
no conversion name leads the metric. -/
theorem parse_interval_err_iff (s : List Char) :
    parse_interval_string s = Except.error interval_error ↔
      ((s.splitOn ' ').length ≠ 2 ∨
       js_to_number ((s.splitOn ' ').headD []) = JSVal.nan ∨
       ∀ kv ∈ conversionList,
         kv.1.isPrefixOf (((s.splitOn ' ').getD 1 []).map Char.toLower) = false) := by
  constructor
  · intro herr
    by_contra hcon
    push_neg at hcon
    obtain ⟨hlen, hnan, kv, hmem, hpre⟩ := hcon
    obtain ⟨c0, c1, hsplit⟩ := List.length_eq_two.mp hlen
    rw [Bool.ne_false_iff] at hpre
    obtain ⟨n, hn⟩ : ∃ n : ℚ, js_to_number ((s.splitOn ' ').headD []) = .num n := by
      cases hj : js_to_number ((s.splitOn ' ').headD []) with
      | num n => exact ⟨n, rfl⟩
      | nan => exact absurd hj hnan
    rw [hsplit] at hn hpre
    simp only [List.headD_cons] at hn
    simp only [List.getD_cons_succ, List.getD_cons_zero] at hpre
    have hok := parse_interval_ok s c0 c1 n kv hsplit hn hmem hpre
    rw [hok] at herr
    exact Except.noConfusion herr
  · exact parse_interval_err s

/-- C6: #parse_interval_string returns amount times the matched unit
factor exactly on two space-separated chunks with a numeric amount and
a metric led by a conversion key (day, hour, minute, second,
millisecond — case-insensitively), and throws its parse error exactly
when the chunk count is not two, the amount is NaN, or no key leads
the metric. -/
theorem C6_parse_interval (s : List Char) :
    (∀ (a u : List Char) (n : ℚ) (kv : List Char × ℚ),
      s.splitOn ' ' = [a, u] →
      js_to_number a = .num n →
      kv ∈ conversionList →
      kv.1.isPrefixOf (u.map Char.toLower) = true →
      parse_interval_string s = Except.ok (n * kv.2)) ∧
    (parse_interval_string s = Except.error interval_error ↔
      ((s.splitOn ' ').length ≠ 2 ∨
       js_to_number ((s.splitOn ' ').headD []) = JSVal.nan ∨
       ∀ kv ∈ conversionList,
         kv.1.isPrefixOf (((s.splitOn ' ').getD 1 []).map Char.toLower) = false)) :=
  ⟨fun a u n kv h1 h2 h3 h4 => parse_interval_ok s a u n kv h1 h2 h3 h4,
   parse_interval_err_iff s⟩

/-- Witness for C6_parse_interval: "5 hours" succeeds with 5 times the
hour factor, the fractional "1.5 hours" succeeds with 1.5 times the
hour factor (JS numerics accept it), and "2 foo" throws. -/
theorem C6_parse_interval_witness :
    parse_interval_string "5 hours".toList =
      Except.ok (5 * ("hour".toList, conversion_hour).2) ∧
    parse_interval_string "1.5 hours".toList =
      Except.ok ((3 / 2) * ("hour".toList, conversion_hour).2) ∧
    parse_interval_string "2 foo".toList = Except.error interval_error :=
  ⟨(C6_parse_interval "5 hours".toList).1 "5".toList "hours".toList 5
      ("hour".toList, conversion_hour) (by decide!) (by decide!)
      (by simp [conversionList]) (by decide!),
   (C6_parse_interval "1.5 hours".toList).1 "1.5".toList "hours".toList (3 / 2)
      ("hour".toList, conversion_hour) (by decide!) (by decide!)
      (by simp [conversionList]) (by decide!),
   (C6_parse_interval "2 foo".toList).2.mpr (Or.inr (Or.inr (by decide!)))⟩

/-! ## Claim C2 -/

/-- C2 (code bug at n = 1): a task configured with repeat(1), one
operation and a finish handler fires exactly once when its single-shot
timer elapses, but the first execution neither arms a recurring timer
(count not > 1) nor finishes (count not < 1), so the task stays
STARTED forever, never reaches FINISHED and never invokes the
whenFinished handler — both timer events are no-ops afterwards.  The
claim (and the spec) expect FINISHED with the handler invoked once. -/
theorem C2_repeat_one_bug :
    TimeTask.create "5:00".toList =
      Except.ok (mk_task ⟨.num 5, .num 0, .num 0, .num 0⟩) ∧
    (let t0 := mk_task ⟨.num 5, .num 0, .num 0, .num 0⟩
     let t1 := (t0.repeat (.fin 1)).1
     let t2 := (t1.whenFinished (.func 0)).1
     let t3 := (t2.do_op (.func 1) ⟨.num 0, .num 0, .num 0, .num 0⟩ 0).1
     let t4 := t3.timeout_fire 18000000
     (t1.repeat_count = .fin 1 ∧ t2.finish_handler = some 0) ∧
     t4.firings = 1 ∧
     t4.state = .STARTED ∧
     t4.handler_calls = 0 ∧
     t4.interval = false ∧
     t4.timeout = false ∧
     t4.timeout_fire 99999999 = t4 ∧
     t4.interval_fire 99999999 = t4) :=
  ⟨by decide!, by decide!⟩

/-! ## Claim C3 -/

/-- C3 counterexample: cancel() has no terminal-state guard, so calling
it on a task that already reached FINISHED (built here by running a
zero-repeat task to completion) moves the state to CANCELLED — FINISHED
is not terminal against cancel(). -/
theorem C3_counterexample :
    (let t := ((mk_task ⟨.num 5, .num 0, .num 0, .num 0⟩).do_op (.func 0)
        ⟨.num 0, .num 0, .num 0, .num 0⟩ 0).1.timeout_fire 18000000
     t.state = .FINISHED ∧ t.cancel.state = .CANCELLED ∧
     t.cancel.state ≠ t.state) := by decide!

/-- In a terminal state with no live timers, a step leaves the state
unchanged except that cancel() forces CANCELLED. -/
theorem step_terminal_state (t : TimeTask) (c : Call)
    (hterm : t.state = .FINISHED ∨ t.state = .CANCELLED)
    (hto : t.timeout = false) (hiv : t.interval = false) :
    (t.step c).state = t.state ∨ (c = Call.cancel ∧ (t.step c).state = .CANCELLED) := by
  cases c with
  | inTimezone a => exact Or.inl (by cases a <;> rfl)
  | do_op f current now =>
    refine Or.inl ?_
    cases f with
    | func g =>
      have hcond : t.state ≠ TaskState.INITIALIZED ∧ t.state ≠ TaskState.PENDING := by
        rcases hterm with h | h <;> rw [h] <;> exact ⟨by simp, by simp⟩
      show (t.do_op (.func g) current now).1.state = t.state
      unfold TimeTask.do_op
      dsimp only
      rw [if_pos hcond]
    | str s => rfl
    | other => rfl
  | «repeat» n =>
    refine Or.inl ?_
    show (t.repeat n).1.state = t.state
    unfold TimeTask.repeat
    split <;> rfl
  | every s =>
    refine Or.inl ?_
    show (t.every s).1.state = t.state
    unfold TimeTask.every
    split <;> rfl
  | whenFinished h =>
    refine Or.inl ?_
    cases h with
    | func g =>
      show (t.whenFinished (.func g)).1.state = t.state
      unfold TimeTask.whenFinished
      dsimp only
      split <;> rfl
    | str s => rfl
    | other => rfl
  | cancel => exact Or.inr ⟨rfl, rfl⟩
  | timeout_fire now =>
    refine Or.inl ?_
    show (t.timeout_fire now).state = t.state
    unfold TimeTask.timeout_fire
    rw [if_neg (by simp [hto])]
  | interval_fire now =>
    refine Or.inl ?_
    show (t.interval_fire now).state = t.state
    unfold TimeTask.interval_fire
    rw [if_neg (by simp [hiv])]

/-- C3 (amended): with no live timers (which is how every terminal
state is reached, since #finish clears both), CANCELLED is absolutely
terminal, and FINISHED is terminal for every interaction EXCEPT
cancel(), which moves a FINISHED task to CANCELLED. -/
theorem C3_terminal_amended (t : TimeTask) (c : Call)
    (hto : t.timeout = false) (hiv : t.interval = false) :
    (t.state = .CANCELLED → (t.step c).state = .CANCELLED) ∧
    (t.state = .FINISHED →
      (t.step c).state = .FINISHED ∨
        (c = Call.cancel ∧ (t.step c).state = .CANCELLED)) := by
  constructor
  · intro h
    rcases step_terminal_state t c (Or.inr h) hto hiv with h2 | ⟨_, h2⟩
    · rw [h2, h]
    · exact h2
  · intro h
    rcases step_terminal_state t c (Or.inl h) hto hiv with h2 | h2
    · exact Or.inl (by rw [h2, h])
    · exact Or.inr h2

/-- Witness for C3_terminal_amended on a concrete cancelled task and a
repeat(5) interaction. -/
theorem C3_terminal_amended_witness :
    (sample_task.cancel.state = .CANCELLED →
      (sample_task.cancel.step (.repeat (.fin 5))).state = .CANCELLED) ∧
    (sample_task.cancel.state = .FINISHED →
      (sample_task.cancel.step (.repeat (.fin 5))).state = .FINISHED ∨
        (Call.repeat (.fin 5) = Call.cancel ∧
          (sample_task.cancel.step (.repeat (.fin 5))).state = .CANCELLED)) :=
  C3_terminal_amended sample_task.cancel (.repeat (.fin 5)) (by decide!) (by decide!)

/-! ## Claim C8 -/

/-- Once a task is CANCELLED with both timers cleared, every further
interaction keeps it CANCELLED with cleared timers and changes neither
the firing counter nor the handler-invocation counter. -/
theorem step_cancelled_quiescent (t : TimeTask) (c : Call)
    (hs : t.state = .CANCELLED) (hto : t.timeout = false) (hiv : t.interval = false) :
    (t.step c).state = .CANCELLED ∧ (t.step c).timeout = false ∧
    (t.step c).interval = false ∧ (t.step c).firings = t.firings ∧
    (t.step c).handler_calls = t.handler_calls := by
  cases c with
  | inTimezone a => cases a <;> exact ⟨hs, hto, hiv, rfl, rfl⟩
  | do_op f current now =>
    cases f with
    | func g =>
      have hcond : t.state ≠ TaskState.INITIALIZED ∧ t.state ≠ TaskState.PENDING := by
        rw [hs]
        exact ⟨by simp, by simp⟩
      dsimp only [TimeTask.step]
      unfold TimeTask.do_op
      dsimp only
      rw [if_pos hcond]
      exact ⟨hs, hto, hiv, rfl, rfl⟩
    | str s => exact ⟨hs, hto, hiv, rfl, rfl⟩
    | other => exact ⟨hs, hto, hiv, rfl, rfl⟩
  | «repeat» n =>
    dsimp only [TimeTask.step]
    unfold TimeTask.repeat
    split <;> exact ⟨hs, hto, hiv, rfl, rfl⟩
  | every s =>
    dsimp only [TimeTask.step]
    unfold TimeTask.every
    split <;> exact ⟨hs, hto, hiv, rfl, rfl⟩
  | whenFinished h =>
    cases h with
    | func g =>
      dsimp only [TimeTask.step]
      unfold TimeTask.whenFinished
      dsimp only
      split <;> exact ⟨hs, hto, hiv, rfl, rfl⟩
    | str s => exact ⟨hs, hto, hiv, rfl, rfl⟩
    | other => exact ⟨hs, hto, hiv, rfl, rfl⟩
  | cancel => exact ⟨rfl, rfl, rfl, rfl, rfl⟩
  | timeout_fire now =>
    dsimp only [TimeTask.step]
    unfold TimeTask.timeout_fire
    rw [if_neg (by simp [hto])]
    exact ⟨hs, hto, hiv, rfl, rfl⟩
  | interval_fire now =>
    dsimp only [TimeTask.step]
    unfold TimeTask.interval_fire
    rw [if_neg (by simp [hiv])]
    exact ⟨hs, hto, hiv, rfl, rfl⟩

/-- Over any sequence of further interactions, a cancelled quiescent
task never fires an operation and never invokes the finish handler. -/
theorem run_cancelled_quiescent (t : TimeTask) (cs : List Call)
    (hs : t.state = .CANCELLED) (hto : t.timeout = false) (hiv : t.interval = false) :
    (t.run cs).firings = t.firings ∧ (t.run cs).handler_calls = t.handler_calls := by
  induction cs generalizing t with
  | nil => exact ⟨rfl, rfl⟩
  | cons c cs ih =>
    obtain ⟨h1, h2, h3, h4, h5⟩ := step_cancelled_quiescent t c hs hto hiv
    have hrest := ih (t.step c) h1 h2 h3
    show ((t.step c).run cs).firings = t.firings ∧
      ((t.step c).run cs).handler_calls = t.handler_calls
    exact ⟨hrest.1.trans h4, hrest.2.trans h5⟩

/-- C8: cancel() from any non-terminal state immediately yields
CANCELLED, clears both timer handles, empties the operation list,
leaves the handler-invocation count untouched (whenFinished is not
invoked), makes both timer events no-ops, and over every sequence of
subsequent interactions no operation firing and no handler invocation
ever happens again. -/
theorem C8_cancel (t : TimeTask)
    (_h1 : t.state ≠ .FINISHED) (_h2 : t.state ≠ .CANCELLED) :
    t.cancel.state = .CANCELLED ∧
    t.cancel.timeout = false ∧
    t.cancel.interval = false ∧
    t.cancel.tasks = [] ∧
    t.cancel.handler_calls = t.handler_calls ∧
    t.cancel.firings = t.firings ∧
    (∀ now : Int, t.cancel.timeout_fire now = t.cancel ∧
      t.cancel.interval_fire now = t.cancel) ∧
    (∀ cs : List Call, (t.cancel.run cs).firings = t.cancel.firings ∧
      (t.cancel.run cs).handler_calls = t.cancel.handler_calls) :=
  ⟨rfl, rfl, rfl, rfl, rfl, rfl,
   fun _ => ⟨rfl, rfl⟩,
   fun cs => run_cancelled_quiescent t.cancel cs rfl rfl rfl⟩

/-- Witness for C8_cancel on a concrete INITIALIZED task. -/
theorem C8_cancel_witness :
    sample_task.cancel.state = .CANCELLED ∧
    sample_task.cancel.timeout = false ∧
    sample_task.cancel.interval = false ∧
    sample_task.cancel.tasks = [] ∧
    sample_task.cancel.handler_calls = sample_task.handler_calls ∧
    sample_task.cancel.firings = sample_task.firings ∧
    (∀ now : Int, sample_task.cancel.timeout_fire now = sample_task.cancel ∧
      sample_task.cancel.interval_fire now = sample_task.cancel) ∧
    (∀ cs : List Call, (sample_task.cancel.run cs).firings = sample_task.cancel.firings ∧
      (sample_task.cancel.run cs).handler_calls = sample_task.cancel.handler_calls) :=
  C8_cancel sample_task (by decide!) (by decide!)
